import Mathlib

/-
Shallow embedding of `src/icp_rust_boilerplate_backend/src/lib.rs`, an
Internet Computer canister implementing DAO governance (organizations,
proposals with deadline-bounded voting, and comments).

Modelling decisions:
* `Principal` (an opaque comparable identity token) is modelled as `Nat`.
* The ambient `caller()` and `time()` of the canister runtime are passed
  explicitly as parameters `c` (caller) and `now` (time in nanoseconds).
* `StableBTreeMap<u64, T, Memory>` is modelled as the map `Nat → Option T`;
  `get`, `insert` and `remove` are `storeGet`, `storeInsert`, `storeErase`.
* The `msg : String` payloads of the `Error` enum are elided; only the
  variants are kept (no claim mentions the message texts).
* The source compares principals in vote lists via
  `user.to_string() == caller().to_string()`; since `Principal::to_string`
  is injective this is plain equality, modelled with `List.contains`.
* `usize` arithmetic follows release-profile wasm32 semantics, where
  overflow checks are disabled: subtraction wraps modulo 2 ^ 32
  (`usize_sub_wrap`). This matters only for the vote difference computed
  by `end_proposal_vote`.
* Each `#[ic_cdk::update]` function returns the new canister state paired
  with its `Result`; returning `Err` does NOT roll the state back (on the
  Internet Computer only traps roll back, a plain error reply commits).
-/

namespace IcpDao

abbrev Principal := Nat

/- Rust struct `Proposal` (lib.rs lines 14-29). -/
structure Proposal where
  id : Nat
  dao_id : Nat
  title : String
  details : String
  amount_requested : Nat
  owner : Option Principal
  upvotes : List Principal
  downvotes : List Principal
  is_approved : Bool
  created_at : Nat
  comments : List Nat
  deadline : Nat
  updated_at : Option Nat
  deriving DecidableEq

/- Rust struct `Dao` (lib.rs lines 31-42). -/
structure Dao where
  id : Nat
  name : String
  description : String
  avatar : String
  owner : Option Principal
  members : List Principal
  proposals : List Nat
  created_at : Nat
  updated_at : Option Nat
  deriving DecidableEq

/- Rust struct `Comment` (lib.rs lines 44-53). -/
structure Comment where
  id : Nat
  content : String
  author : Option Principal
  likes : List Principal
  proposal_id : Nat
  created_at : Nat
  updated_at : Option Nat
  deriving DecidableEq

/- Payload structs (lib.rs lines 130-149). -/
structure ProposalPayload where
  title : String
  details : String
  amount_requested : Nat
  dao_id : Nat
  deriving DecidableEq

structure DaoPayload where
  name : String
  description : String
  avatar : String
  deriving DecidableEq

structure CommentPayload where
  content : String
  proposal_id : Nat
  deriving DecidableEq

/- Rust enum `Error` (lib.rs lines 792-803), message strings elided. -/
inductive Error where
  | NotFound
  | NotAMember
  | HasVoted
  | CantVoteYours
  | CantLikeYours
  | CantEditProposal
  | PermissionError
  | DeadlineExceeded
  | DeadlineNotExceeded
  deriving DecidableEq

deriving instance DecidableEq for Except

/- A `StableBTreeMap<u64, α, Memory>` as a partial map on keys. -/
def Store (α : Type) : Type := Nat → Option α

def storeGet {α : Type} (st : Store α) (k : Nat) : Option α := st k

def storeInsert {α : Type} (st : Store α) (k : Nat) (v : α) : Store α :=
  fun j => if j = k then some v else st j

def storeErase {α : Type} (st : Store α) (k : Nat) : Store α :=
  fun j => if j = k then none else st j

def storeEmpty {α : Type} : Store α := fun _ => none

/- The canister's global mutable state: the `ID_COUNTER` cell and the three
stable maps (lib.rs lines 103-127). -/
structure State where
  id_counter : Nat
  daos : Store Dao
  proposals : Store Proposal
  comments : Store Comment

def emptyState : State :=
  { id_counter := 0, daos := storeEmpty, proposals := storeEmpty, comments := storeEmpty }

/- Helper `_get_dao` (lib.rs line 831). -/
def _get_dao (s : State) (id : Nat) : Option Dao := storeGet s.daos id

/- Helper `_get_proposal` (lib.rs line 827). -/
def _get_proposal (s : State) (id : Nat) : Option Proposal := storeGet s.proposals id

/- Helper `_get_comment` (lib.rs line 835). -/
def _get_comment (s : State) (id : Nat) : Option Comment := storeGet s.comments id

/- Helper `is_deadline_not_reaached` (lib.rs lines 840-842): despite its
name it returns `time() > deadline`, i.e. true when the deadline HAS
passed. -/
def is_deadline_not_reaached (now deadline : Nat) : Bool := decide (deadline < now)

/- Helper `_is_user_part_of_dao` (lib.rs lines 901-913): `some true` when
the dao exists and the caller is its owner or a member, `none` otherwise
(including when the dao does not exist). -/
def _is_user_part_of_dao (s : State) (c : Principal) (id : Nat) : Option Bool :=
  match _get_dao s id with
  | some dao => if dao.owner == some c || dao.members.contains c then some true else none
  | none => none

/- `get_dao` query (lib.rs lines 178-193). -/
def get_dao (s : State) (c : Principal) (id : Nat) : Except Error Dao :=
  match _is_user_part_of_dao s c id with
  | some _ =>
      match _get_dao s id with
      | some dao => Except.ok dao
      | none => Except.error Error.NotFound
  | none => Except.error Error.NotAMember

/- `create_dao` update call (lib.rs lines 196-221). `Cell::set` returns the
previous counter value, which becomes the fresh id. -/
def create_dao (s : State) (c now : Nat) (payload : DaoPayload) : State × Option Dao :=
  let id := s.id_counter
  let dao : Dao :=
    { id := id, name := payload.name, description := payload.description,
      avatar := payload.avatar, owner := some c, members := [], proposals := [],
      created_at := now, updated_at := none }
  ({ s with id_counter := id + 1, daos := storeInsert s.daos dao.id dao }, some dao)

/- `update_dao` update call (lib.rs lines 224-246). -/
def update_dao (s : State) (c now : Nat) (id : Nat) (payload : DaoPayload) :
    State × Except Error Dao :=
  match storeGet s.daos id with
  | some dao =>
      if dao.owner.isSome && dao.owner != some c then
        (s, Except.error Error.PermissionError)
      else
        let dao1 :=
          { dao with
            name := payload.name,
            description := payload.description,
            avatar := payload.avatar,
            updated_at := some now }
        ({ s with daos := storeInsert s.daos dao1.id dao1 }, Except.ok dao1)
  | none => (s, Except.error Error.NotFound)

/- `delete_dao` update call (lib.rs lines 249-272). Note that the source
calls `DAO_STORAGE.remove(&id)` FIRST: the dao is removed from the store
before the ownership check runs, so the removal persists even when the
call then returns `PermissionError`. -/
def delete_dao (s : State) (c : Principal) (id : Nat) : State × Except Error Dao :=
  match storeGet s.daos id with
  | some dao =>
      if dao.owner.isSome && dao.owner != some c then
        ({ s with daos := storeErase s.daos id }, Except.error Error.PermissionError)
      else
        ({ s with
           daos := storeErase s.daos id,
           proposals := dao.proposals.foldl (fun ps pid => storeErase ps pid) s.proposals },
         Except.ok dao)
  | none => (s, Except.error Error.NotFound)

/- `get_proposal` query (lib.rs lines 281-297). -/
def get_proposal (s : State) (c : Principal) (id : Nat) : Except Error Proposal :=
  match _get_proposal s id with
  | some proposal =>
      match _is_user_part_of_dao s c proposal.dao_id with
      | some _ => Except.ok proposal
      | none => Except.error Error.NotAMember
  | none => Except.error Error.NotFound

/- `add_proposal` update call (lib.rs lines 371-423). -/
def add_proposal (s : State) (c now : Nat) (payload : ProposalPayload) :
    State × Except Error Proposal :=
  match _is_user_part_of_dao s c payload.dao_id with
  | some _ =>
      match storeGet s.daos payload.dao_id with
      | some dao =>
          let dao1 :=
            { dao with
              proposals := dao.proposals ++ [s.id_counter],
              updated_at := some now }
          let proposal : Proposal :=
            { id := s.id_counter, dao_id := payload.dao_id, title := payload.title,
              details := payload.details, amount_requested := payload.amount_requested,
              owner := some c, upvotes := [], downvotes := [], is_approved := false,
              created_at := now, comments := [],
              deadline := now + 7 * 24 * 60 * 60 * 1000000000, updated_at := none }
          ({ s with
             id_counter := s.id_counter + 1,
             daos := storeInsert s.daos dao1.id dao1,
             proposals := storeInsert s.proposals proposal.id proposal },
           Except.ok proposal)
      | none =>
          let proposal : Proposal :=
            { id := s.id_counter, dao_id := payload.dao_id, title := payload.title,
              details := payload.details, amount_requested := payload.amount_requested,
              owner := some c, upvotes := [], downvotes := [], is_approved := false,
              created_at := now, comments := [],
              deadline := now + 7 * 24 * 60 * 60 * 1000000000, updated_at := none }
          ({ s with
             id_counter := s.id_counter + 1,
             proposals := storeInsert s.proposals proposal.id proposal },
           Except.ok proposal)
  | none => (s, Except.error Error.NotAMember)

/- `update_proposal` update call (lib.rs lines 426-462). -/
def update_proposal (s : State) (c now : Nat) (id : Nat) (payload : ProposalPayload) :
    State × Except Error Proposal :=
  match storeGet s.proposals id with
  | some proposal =>
      if proposal.owner.isSome && proposal.owner != some c then
        (s, Except.error Error.PermissionError)
      else if is_deadline_not_reaached now proposal.deadline then
        (s, Except.error Error.DeadlineExceeded)
      else
        let p1 :=
          { proposal with
            title := payload.title,
            details := payload.details,
            amount_requested := payload.amount_requested,
            updated_at := some now }
        ({ s with proposals := storeInsert s.proposals p1.id p1 }, Except.ok p1)
  | none => (s, Except.error Error.NotFound)

/- Helper `_check_if_can_vote` (lib.rs lines 845-898). Checks, in order:
dao membership (failure: `NotFound`), caller is not the proposal owner
(`CantVoteYours`), caller has not upvoted (`HasVoted`), caller has not
downvoted (`HasVoted`), deadline not passed (`DeadlineExceeded`). -/
def _check_if_can_vote (s : State) (c now : Nat) (proposal : Proposal) (id : Nat) :
    Except Error Unit :=
  match _is_user_part_of_dao s c id with
  | some _ =>
      if proposal.owner.isSome && proposal.owner == some c then
        Except.error Error.CantVoteYours
      else if proposal.upvotes.contains c then
        Except.error Error.HasVoted
      else if proposal.downvotes.contains c then
        Except.error Error.HasVoted
      else if is_deadline_not_reaached now proposal.deadline then
        Except.error Error.DeadlineExceeded
      else
        Except.ok ()
  | none => Except.error Error.NotFound

/- `upvote` update call (lib.rs lines 465-485). -/
def upvote (s : State) (c now : Nat) (id : Nat) : State × Except Error Proposal :=
  match storeGet s.proposals id with
  | some proposal =>
      match _check_if_can_vote s c now proposal proposal.dao_id with
      | Except.error e => (s, Except.error e)
      | Except.ok _ =>
          let p1 := { proposal with upvotes := proposal.upvotes ++ [c] }
          ({ s with proposals := storeInsert s.proposals p1.id p1 }, Except.ok p1)
  | none => (s, Except.error Error.NotFound)

/- `downvote` update call (lib.rs lines 488-508). -/
def downvote (s : State) (c now : Nat) (id : Nat) : State × Except Error Proposal :=
  match storeGet s.proposals id with
  | some proposal =>
      match _check_if_can_vote s c now proposal proposal.dao_id with
      | Except.error e => (s, Except.error e)
      | Except.ok _ =>
          let p1 := { proposal with downvotes := proposal.downvotes ++ [c] }
          ({ s with proposals := storeInsert s.proposals p1.id p1 }, Except.ok p1)
  | none => (s, Except.error Error.NotFound)

/- Wrapping `usize` subtraction on wasm32 (release profile, overflow checks
off): `a - b` computed modulo 2 ^ 32. -/
def usize_sub_wrap (a b : Nat) : Nat := (2 ^ 32 + a % 2 ^ 32 - b % 2 ^ 32) % 2 ^ 32

/- `end_proposal_vote` update call (lib.rs lines 511-546). The ownership
failure uses the `CantEditProposal` variant. `total_votes` is the wrapping
`usize` difference `downvotes.len() - upvotes.len()`. -/
def end_proposal_vote (s : State) (c now : Nat) (id : Nat) : State × Except Error Proposal :=
  match storeGet s.proposals id with
  | some proposal =>
      if proposal.owner.isSome && proposal.owner != some c then
        (s, Except.error Error.CantEditProposal)
      else if !is_deadline_not_reaached now proposal.deadline then
        (s, Except.error Error.DeadlineNotExceeded)
      else
        let total_votes := usize_sub_wrap proposal.downvotes.length proposal.upvotes.length
        let p1 := { proposal with is_approved := decide (0 < total_votes) }
        ({ s with proposals := storeInsert s.proposals p1.id p1 }, Except.ok p1)
  | none => (s, Except.error Error.NotFound)

/- `delete_proposal` update call (lib.rs lines 549-592). As with
`delete_dao`, the source removes the proposal from the store FIRST, so the
removal persists even when the call then errors. -/
def delete_proposal (s : State) (c now : Nat) (id : Nat) : State × Except Error Proposal :=
  match storeGet s.proposals id with
  | some proposal =>
      if proposal.owner.isSome && proposal.owner != some c then
        ({ s with proposals := storeErase s.proposals id }, Except.error Error.PermissionError)
      else if is_deadline_not_reaached now proposal.deadline then
        ({ s with proposals := storeErase s.proposals id }, Except.error Error.DeadlineExceeded)
      else
        match storeGet s.daos proposal.dao_id with
        | some dao =>
            let dao1 := { dao with proposals := dao.proposals.filter (fun x => x ≠ id) }
            ({ s with
               proposals := storeErase s.proposals id,
               daos := storeInsert s.daos dao1.id dao1,
               comments := proposal.comments.foldl (fun cs cid => storeErase cs cid) s.comments },
             Except.ok proposal)
        | none =>
            ({ s with
               proposals := storeErase s.proposals id,
               comments := proposal.comments.foldl (fun cs cid => storeErase cs cid) s.comments },
             Except.ok proposal)
  | none => (s, Except.error Error.NotFound)

/- `comment_on_post` update call (lib.rs lines 629-678). Note the
missing-proposal branch returns the `NotAMember` variant in the source. -/
def comment_on_post (s : State) (c now : Nat) (payload : CommentPayload) :
    State × Except Error Comment :=
  match storeGet s.proposals payload.proposal_id with
  | some proposal =>
      match _is_user_part_of_dao s c proposal.dao_id with
      | some _ =>
          let id := s.id_counter
          let s1 := { s with id_counter := id + 1 }
          let p1 :=
            { proposal with
              comments := proposal.comments ++ [id],
              updated_at := some now }
          let s2 := { s1 with proposals := storeInsert s1.proposals p1.id p1 }
          let comment : Comment :=
            { id := id, content := payload.content, proposal_id := payload.proposal_id,
              created_at := now, updated_at := none, likes := [], author := some c }
          ({ s2 with comments := storeInsert s2.comments comment.id comment },
            Except.ok comment)
      | none => (s, Except.error Error.NotAMember)
  | none => (s, Except.error Error.NotAMember)

/- `update_comment` update call (lib.rs lines 681-707). -/
def update_comment (s : State) (c now : Nat) (id : Nat) (payload : CommentPayload) :
    State × Except Error Comment :=
  match storeGet s.comments id with
  | some comment =>
      if comment.author.isSome && comment.author != some c then
        (s, Except.error Error.PermissionError)
      else
        let c1 := { comment with content := payload.content, updated_at := some now }
        ({ s with comments := storeInsert s.comments c1.id c1 }, Except.ok c1)
  | none => (s, Except.error Error.NotFound)

/- `like_comment` update call (lib.rs lines 710-750). -/
def like_comment (s : State) (c : Principal) (id dao_id : Nat) : State × Except Error Comment :=
  match storeGet s.comments id with
  | some comment =>
      match _is_user_part_of_dao s c dao_id with
      | some _ =>
          if comment.author.isSome && comment.author == some c then
            (s, Except.error Error.CantLikeYours)
          else if comment.likes.contains c then
            (s, Except.error Error.HasVoted)
          else
            let c1 := { comment with likes := comment.likes ++ [c] }
            ({ s with comments := storeInsert s.comments c1.id c1 }, Except.ok c1)
      | none => (s, Except.error Error.NotFound)
  | none => (s, Except.error Error.NotFound)

/- `delete_comment` update call (lib.rs lines 753-784). The comment is
removed from the store before the authorship check. -/
def delete_comment (s : State) (c : Principal) (id : Nat) : State × Except Error Comment :=
  match storeGet s.comments id with
  | some comment =>
      if comment.author.isSome && comment.author != some c then
        ({ s with comments := storeErase s.comments id }, Except.error Error.PermissionError)
      else
        match storeGet s.proposals comment.proposal_id with
        | some proposal =>
            let p1 := { proposal with comments := proposal.comments.filter (fun x => x ≠ id) }
            ({ s with
               comments := storeErase s.comments id,
               proposals := storeInsert s.proposals p1.id p1 }, Except.ok comment)
        | none =>
            ({ s with comments := storeErase s.comments id }, Except.ok comment)
  | none => (s, Except.error Error.NotFound)

/-
Vote-set invariant (spec section 3 / section 8): no identity is in both
vote lists of a proposal, and the proposal's owner (when present) is in
neither.
-/
def VoteInv (p : Proposal) : Prop :=
  (∀ x, x ∈ p.upvotes → x ∉ p.downvotes) ∧
  (∀ o, p.owner = some o → o ∉ p.upvotes ∧ o ∉ p.downvotes)

/- Every proposal currently held in the proposal store satisfies `VoteInv`. -/
def StateVoteInv (s : State) : Prop :=
  ∀ id p, storeGet s.proposals id = some p → VoteInv p

/-
One successful state-mutating operation: a step `Step s s'` holds when
some `#[ic_cdk::update]` endpoint, run in state `s` by some caller at some
time, returns `Ok` and leaves state `s'`. (`create_dao` always succeeds;
query endpoints never change state.)
-/
inductive Step : State → State → Prop where
  | of_create_dao (s : State) (c now : Nat) (pl : DaoPayload) :
      Step s (create_dao s c now pl).1
  | of_update_dao (s : State) (c now id : Nat) (pl : DaoPayload) (d : Dao)
      (h : (update_dao s c now id pl).2 = Except.ok d) :
      Step s (update_dao s c now id pl).1
  | of_delete_dao (s : State) (c id : Nat) (d : Dao)
      (h : (delete_dao s c id).2 = Except.ok d) :
      Step s (delete_dao s c id).1
  | of_add_proposal (s : State) (c now : Nat) (pl : ProposalPayload) (p : Proposal)
      (h : (add_proposal s c now pl).2 = Except.ok p) :
      Step s (add_proposal s c now pl).1
  | of_update_proposal (s : State) (c now id : Nat) (pl : ProposalPayload) (p : Proposal)
      (h : (update_proposal s c now id pl).2 = Except.ok p) :
      Step s (update_proposal s c now id pl).1
  | of_upvote (s : State) (c now id : Nat) (p : Proposal)
      (h : (upvote s c now id).2 = Except.ok p) :
      Step s (upvote s c now id).1
  | of_downvote (s : State) (c now id : Nat) (p : Proposal)
      (h : (downvote s c now id).2 = Except.ok p) :
      Step s (downvote s c now id).1
  | of_end_proposal_vote (s : State) (c now id : Nat) (p : Proposal)
      (h : (end_proposal_vote s c now id).2 = Except.ok p) :
      Step s (end_proposal_vote s c now id).1
  | of_delete_proposal (s : State) (c now id : Nat) (p : Proposal)
      (h : (delete_proposal s c now id).2 = Except.ok p) :
      Step s (delete_proposal s c now id).1
  | of_comment_on_post (s : State) (c now : Nat) (pl : CommentPayload) (cm : Comment)
      (h : (comment_on_post s c now pl).2 = Except.ok cm) :
      Step s (comment_on_post s c now pl).1
  | of_update_comment (s : State) (c now id : Nat) (pl : CommentPayload) (cm : Comment)
      (h : (update_comment s c now id pl).2 = Except.ok cm) :
      Step s (update_comment s c now id pl).1
  | of_like_comment (s : State) (c id dao_id : Nat) (cm : Comment)
      (h : (like_comment s c id dao_id).2 = Except.ok cm) :
      Step s (like_comment s c id dao_id).1
  | of_delete_comment (s : State) (c id : Nat) (cm : Comment)
      (h : (delete_comment s c id).2 = Except.ok cm) :
      Step s (delete_comment s c id).1

/- Reflexive-transitive closure of `Step`. -/
inductive ReachableFrom : State → State → Prop where
  | refl (s : State) : ReachableFrom s s
  | tail (s1 s2 s3 : State) (h1 : ReachableFrom s1 s2) (h2 : Step s2 s3) :
      ReachableFrom s1 s3

/-
Concrete fixtures used by the counterexample and witness theorems below.
Dao 0 is owned by principal 1 with members 2 and 3; proposal 1 lives in
dao 0, is owned by principal 1, has one upvote (by 2), no downvotes, and
deadline 10.
-/
def fixDao : Dao :=
  { id := 0, name := "d", description := "", avatar := "", owner := some 1,
    members := [2, 3], proposals := [1], created_at := 0, updated_at := none }

def fixProposal : Proposal :=
  { id := 1, dao_id := 0, title := "t", details := "", amount_requested := 5,
    owner := some 1, upvotes := [2], downvotes := [], is_approved := false,
    created_at := 0, comments := [], deadline := 10, updated_at := none }

def fixState : State :=
  { id_counter := 2,
    daos := storeInsert storeEmpty 0 fixDao,
    proposals := storeInsert storeEmpty 1 fixProposal,
    comments := storeEmpty }

/- Variants with the owner/author fields absent (the corrupt/default state
the spec mentions), for the ownership-skip claim. -/
def fixDaoNoOwner : Dao := { fixDao with owner := none }

def fixProposalNoOwner : Proposal := { fixProposal with owner := none }

def fixCommentNoAuthor : Comment :=
  { id := 4, content := "c", author := none, likes := [], proposal_id := 1,
    created_at := 0, updated_at := none }

def fixStateNoOwner : State :=
  { id_counter := 5,
    daos := storeInsert storeEmpty 0 fixDaoNoOwner,
    proposals := storeInsert storeEmpty 1 fixProposalNoOwner,
    comments := storeInsert storeEmpty 4 fixCommentNoAuthor }

/- Basic lemmas about the map abstraction. -/

theorem storeGet_insert {α : Type} (st : Store α) (k j : Nat) (v : α) :
    storeGet (storeInsert st k v) j = if j = k then some v else storeGet st j := rfl

theorem storeGet_erase {α : Type} (st : Store α) (k j : Nat) :
    storeGet (storeErase st k) j = if j = k then none else storeGet st j := rfl

theorem storeGet_foldl_erase {α : Type} (l : List Nat) (st : Store α) (j : Nat) (v : α)
    (h : storeGet (l.foldl (fun m k => storeErase m k) st) j = some v) :
    storeGet st j = some v := by
  induction l generalizing st with
  | nil => exact h
  | cons a t ih =>
      have h2 := ih (storeErase st a) h
      rw [storeGet_erase] at h2
      by_cases hja : j = a
      · simp [hja] at h2
      · simpa [hja] using h2

theorem storeGet_foldl_erase_of_none {α : Type} (l : List Nat) (st : Store α) (j : Nat)
    (h : storeGet st j = none) :
    storeGet (l.foldl (fun m k => storeErase m k) st) j = none := by
  induction l generalizing st with
  | nil => exact h
  | cons a t ih =>
      apply ih
      rw [storeGet_erase]
      by_cases hja : j = a <;> simp [hja, h]

theorem storeGet_foldl_erase_of_mem {α : Type} (l : List Nat) (st : Store α) (j : Nat)
    (hj : j ∈ l) :
    storeGet (l.foldl (fun m k => storeErase m k) st) j = none := by
  induction l generalizing st with
  | nil => cases hj
  | cons a t ih =>
      by_cases hja : j = a
      · by_cases hjt : j ∈ t
        · exact ih (storeErase st a) hjt
        · exact storeGet_foldl_erase_of_none t (storeErase st a) j
            (by rw [storeGet_erase]; simp [hja])
      · exact ih (storeErase st a) (by
          cases hj with
          | head => exact absurd rfl hja
          | tail _ h => exact h)

/- Facts certified by a successful `_check_if_can_vote`: the caller is not
the proposal owner and has not voted either way, and the deadline has not
passed. -/
theorem check_ok_facts (s : State) (c now : Nat) (p : Proposal) (id : Nat)
    (h : _check_if_can_vote s c now p id = Except.ok ()) :
    p.owner ≠ some c ∧ c ∉ p.upvotes ∧ c ∉ p.downvotes ∧ now ≤ p.deadline := by
  unfold _check_if_can_vote at h
  cases hm : _is_user_part_of_dao s c id with
  | none => rw [hm] at h; exact absurd h (by simp)
  | some b =>
      rw [hm] at h
      by_cases h1 : (p.owner.isSome && p.owner == some c) = true
      · rw [if_pos h1] at h; exact absurd h (by simp)
      · rw [if_neg h1] at h
        by_cases h2 : p.upvotes.contains c = true
        · rw [if_pos h2] at h; exact absurd h (by simp)
        · rw [if_neg h2] at h
          by_cases h3 : p.downvotes.contains c = true
          · rw [if_pos h3] at h; exact absurd h (by simp)
          · rw [if_neg h3] at h
            by_cases h4 : is_deadline_not_reaached now p.deadline = true
            · rw [if_pos h4] at h; exact absurd h (by simp)
            · refine ⟨?_, ?_, ?_, ?_⟩
              · intro he; rw [he] at h1; simp at h1
              · intro hmem; exact h2 (by simpa using hmem)
              · intro hmem; exact h3 (by simpa using hmem)
              · unfold is_deadline_not_reaached at h4
                simpa using h4

/- `VoteInv` transported across proposal-store edits. -/

theorem voteInv_insert_store (ps : Store Proposal) (k : Nat) (v : Proposal)
    (h : ∀ j q, storeGet ps j = some q → VoteInv q) (hv : VoteInv v) :
    ∀ j q, storeGet (storeInsert ps k v) j = some q → VoteInv q := by
  intro j q hq
  rw [storeGet_insert] at hq
  by_cases hk : j = k
  · rw [if_pos hk] at hq; cases hq; exact hv
  · rw [if_neg hk] at hq; exact h j q hq

theorem voteInv_erase_store (ps : Store Proposal) (k : Nat)
    (h : ∀ j q, storeGet ps j = some q → VoteInv q) :
    ∀ j q, storeGet (storeErase ps k) j = some q → VoteInv q := by
  intro j q hq
  rw [storeGet_erase] at hq
  by_cases hk : j = k
  · rw [if_pos hk] at hq; cases hq
  · rw [if_neg hk] at hq; exact h j q hq

theorem voteInv_foldl_erase_store (ps : Store Proposal) (l : List Nat)
    (h : ∀ j q, storeGet ps j = some q → VoteInv q) :
    ∀ j q, storeGet (l.foldl (fun m k => storeErase m k) ps) j = some q → VoteInv q :=
  fun j q hq => h j q (storeGet_foldl_erase l ps j q hq)

/- Preservation of the vote-set invariant by each state-mutating
endpoint. The invariant is in fact preserved by every call, whether it
returns `Ok` or `Err`. -/

theorem create_dao_preserves (s : State) (c now : Nat) (pl : DaoPayload)
    (h : StateVoteInv s) : StateVoteInv (create_dao s c now pl).1 := h

theorem update_dao_preserves (s : State) (c now id : Nat) (pl : DaoPayload)
    (h : StateVoteInv s) : StateVoteInv (update_dao s c now id pl).1 := by
  unfold update_dao
  cases storeGet s.daos id with
  | none => exact h
  | some dao =>
      dsimp only
      by_cases hc : (dao.owner.isSome && dao.owner != some c) = true
      · rw [if_pos hc]; exact h
      · rw [if_neg hc]; exact h

theorem delete_dao_preserves (s : State) (c id : Nat)
    (h : StateVoteInv s) : StateVoteInv (delete_dao s c id).1 := by
  unfold delete_dao
  cases storeGet s.daos id with
  | none => exact h
  | some dao =>
      dsimp only
      by_cases hc : (dao.owner.isSome && dao.owner != some c) = true
      · rw [if_pos hc]; exact h
      · rw [if_neg hc]; exact voteInv_foldl_erase_store s.proposals dao.proposals h

theorem add_proposal_preserves (s : State) (c now : Nat) (pl : ProposalPayload)
    (h : StateVoteInv s) : StateVoteInv (add_proposal s c now pl).1 := by
  unfold add_proposal
  cases _is_user_part_of_dao s c pl.dao_id with
  | none => exact h
  | some b =>
      cases storeGet s.daos pl.dao_id with
      | none =>
          exact voteInv_insert_store s.proposals s.id_counter _ h
            ⟨fun x hx => absurd hx (List.not_mem_nil x), fun o _ => ⟨List.not_mem_nil o, List.not_mem_nil o⟩⟩
      | some dao =>
          exact voteInv_insert_store s.proposals s.id_counter _ h
            ⟨fun x hx => absurd hx (List.not_mem_nil x), fun o _ => ⟨List.not_mem_nil o, List.not_mem_nil o⟩⟩

theorem update_proposal_preserves (s : State) (c now id : Nat) (pl : ProposalPayload)
    (h : StateVoteInv s) : StateVoteInv (update_proposal s c now id pl).1 := by
  unfold update_proposal
  cases hg : storeGet s.proposals id with
  | none => exact h
  | some p =>
      dsimp only
      by_cases h1 : (p.owner.isSome && p.owner != some c) = true
      · rw [if_pos h1]; exact h
      · rw [if_neg h1]
        by_cases h2 : is_deadline_not_reaached now p.deadline = true
        · rw [if_pos h2]; exact h
        · rw [if_neg h2]
          exact voteInv_insert_store s.proposals p.id _ h (h id p hg)

theorem upvote_preserves (s : State) (c now id : Nat)
    (h : StateVoteInv s) : StateVoteInv (upvote s c now id).1 := by
  unfold upvote
  cases hg : storeGet s.proposals id with
  | none => exact h
  | some p =>
      dsimp only
      cases hc : _check_if_can_vote s c now p p.dao_id with
      | error e => exact h
      | ok u =>
          cases u
          dsimp only
          obtain ⟨ho, hu, hd, _⟩ := check_ok_facts s c now p p.dao_id hc
          have hp := h id p hg
          refine voteInv_insert_store s.proposals p.id _ h ⟨?_, ?_⟩
          · intro x hx
            rcases List.mem_append.mp hx with hx1 | hx2
            · exact hp.1 x hx1
            · rw [List.mem_singleton] at hx2; subst hx2; exact hd
          · intro o hoo
            have hoe := hp.2 o hoo
            refine ⟨?_, hoe.2⟩
            intro hmem
            rcases List.mem_append.mp hmem with hx1 | hx2
            · exact hoe.1 hx1
            · rw [List.mem_singleton] at hx2; subst hx2; exact ho hoo

theorem downvote_preserves (s : State) (c now id : Nat)
    (h : StateVoteInv s) : StateVoteInv (downvote s c now id).1 := by
  unfold downvote
  cases hg : storeGet s.proposals id with
  | none => exact h
  | some p =>
      dsimp only
      cases hc : _check_if_can_vote s c now p p.dao_id with
      | error e => exact h
      | ok u =>
          cases u
          dsimp only
          obtain ⟨ho, hu, hd, _⟩ := check_ok_facts s c now p p.dao_id hc
          have hp := h id p hg
          refine voteInv_insert_store s.proposals p.id _ h ⟨?_, ?_⟩
          · intro x hx hmem
            rcases List.mem_append.mp hmem with hx1 | hx2
            · exact hp.1 x hx hx1
            · rw [List.mem_singleton] at hx2; subst hx2; exact hu hx
          · intro o hoo
            have hoe := hp.2 o hoo
            refine ⟨hoe.1, ?_⟩
            intro hmem
            rcases List.mem_append.mp hmem with hx1 | hx2
            · exact hoe.2 hx1
            · rw [List.mem_singleton] at hx2; subst hx2; exact ho hoo

theorem end_proposal_vote_preserves (s : State) (c now id : Nat)
    (h : StateVoteInv s) : StateVoteInv (end_proposal_vote s c now id).1 := by
  unfold end_proposal_vote
  cases hg : storeGet s.proposals id with
  | none => exact h
  | some p =>
      dsimp only
      by_cases h1 : (p.owner.isSome && p.owner != some c) = true
      · rw [if_pos h1]; exact h
      · rw [if_neg h1]
        by_cases h2 : (!is_deadline_not_reaached now p.deadline) = true
        · rw [if_pos h2]; exact h
        · rw [if_neg h2]
          exact voteInv_insert_store s.proposals p.id _ h (h id p hg)

theorem delete_proposal_preserves (s : State) (c now id : Nat)
    (h : StateVoteInv s) : StateVoteInv (delete_proposal s c now id).1 := by
  unfold delete_proposal
  cases hg : storeGet s.proposals id with
  | none => exact h
  | some p =>
      dsimp only
      by_cases h1 : (p.owner.isSome && p.owner != some c) = true
      · rw [if_pos h1]; exact voteInv_erase_store s.proposals id h
      · rw [if_neg h1]
        by_cases h2 : is_deadline_not_reaached now p.deadline = true
        · rw [if_pos h2]; exact voteInv_erase_store s.proposals id h
        · rw [if_neg h2]
          cases storeGet s.daos p.dao_id with
          | none => exact voteInv_erase_store s.proposals id h
          | some dao => exact voteInv_erase_store s.proposals id h

theorem comment_on_post_preserves (s : State) (c now : Nat) (pl : CommentPayload)
    (h : StateVoteInv s) : StateVoteInv (comment_on_post s c now pl).1 := by
  unfold comment_on_post
  cases hg : storeGet s.proposals pl.proposal_id with
  | none => exact h
  | some p =>
      dsimp only
      cases _is_user_part_of_dao s c p.dao_id with
      | none => exact h
      | some b => exact voteInv_insert_store s.proposals p.id _ h (h pl.proposal_id p hg)

theorem update_comment_preserves (s : State) (c now id : Nat) (pl : CommentPayload)
    (h : StateVoteInv s) : StateVoteInv (update_comment s c now id pl).1 := by
  unfold update_comment
  cases storeGet s.comments id with
  | none => exact h
  | some cm =>
      dsimp only
      by_cases hc : (cm.author.isSome && cm.author != some c) = true
      · rw [if_pos hc]; exact h
      · rw [if_neg hc]; exact h

theorem like_comment_preserves (s : State) (c id dao_id : Nat)
    (h : StateVoteInv s) : StateVoteInv (like_comment s c id dao_id).1 := by
  unfold like_comment
  cases storeGet s.comments id with
  | none => exact h
  | some cm =>
      cases _is_user_part_of_dao s c dao_id with
      | none => exact h
      | some b =>
          dsimp only
          by_cases h1 : (cm.author.isSome && cm.author == some c) = true
          · rw [if_pos h1]; exact h
          · rw [if_neg h1]
            by_cases h2 : cm.likes.contains c = true
            · rw [if_pos h2]; exact h
            · rw [if_neg h2]; exact h

theorem delete_comment_preserves (s : State) (c id : Nat)
    (h : StateVoteInv s) : StateVoteInv (delete_comment s c id).1 := by
  unfold delete_comment
  cases storeGet s.comments id with
  | none => exact h
  | some cm =>
      dsimp only
      by_cases h1 : (cm.author.isSome && cm.author != some c) = true
      · rw [if_pos h1]; exact h
      · rw [if_neg h1]
        cases hg : storeGet s.proposals cm.proposal_id with
        | none => exact h
        | some p => exact voteInv_insert_store s.proposals p.id _ h (h cm.proposal_id p hg)

/- Characterization of `_check_if_can_vote`, one lemma per outcome, in the
order the source performs the checks. -/

theorem check_not_member (s : State) (c now : Nat) (p : Proposal) (id : Nat)
    (hm : _is_user_part_of_dao s c id = none) :
    _check_if_can_vote s c now p id = Except.error Error.NotFound := by
  unfold _check_if_can_vote
  rw [hm]

theorem check_self_vote (s : State) (c now : Nat) (p : Proposal) (id : Nat)
    (hm : _is_user_part_of_dao s c id ≠ none) (hown : p.owner = some c) :
    _check_if_can_vote s c now p id = Except.error Error.CantVoteYours := by
  unfold _check_if_can_vote
  cases hmm : _is_user_part_of_dao s c id with
  | none => exact absurd hmm hm
  | some b =>
      dsimp only
      rw [hown]
      simp

theorem check_has_upvoted (s : State) (c now : Nat) (p : Proposal) (id : Nat)
    (hm : _is_user_part_of_dao s c id ≠ none) (hown : p.owner ≠ some c)
    (hup : c ∈ p.upvotes) :
    _check_if_can_vote s c now p id = Except.error Error.HasVoted := by
  unfold _check_if_can_vote
  cases hmm : _is_user_part_of_dao s c id with
  | none => exact absurd hmm hm
  | some b =>
      dsimp only
      rw [if_neg (by simp [beq_eq_false_iff_ne.mpr hown]), if_pos (by simpa using hup)]

theorem check_has_downvoted (s : State) (c now : Nat) (p : Proposal) (id : Nat)
    (hm : _is_user_part_of_dao s c id ≠ none) (hown : p.owner ≠ some c)
    (hup : c ∉ p.upvotes) (hdown : c ∈ p.downvotes) :
    _check_if_can_vote s c now p id = Except.error Error.HasVoted := by
  unfold _check_if_can_vote
  cases hmm : _is_user_part_of_dao s c id with
  | none => exact absurd hmm hm
  | some b =>
      dsimp only
      rw [if_neg (by simp [beq_eq_false_iff_ne.mpr hown]),
        if_neg (by simpa using hup), if_pos (by simpa using hdown)]

theorem check_deadline_passed (s : State) (c now : Nat) (p : Proposal) (id : Nat)
    (hm : _is_user_part_of_dao s c id ≠ none) (hown : p.owner ≠ some c)
    (hup : c ∉ p.upvotes) (hdown : c ∉ p.downvotes) (hdl : p.deadline < now) :
    _check_if_can_vote s c now p id = Except.error Error.DeadlineExceeded := by
  unfold _check_if_can_vote
  cases hmm : _is_user_part_of_dao s c id with
  | none => exact absurd hmm hm
  | some b =>
      dsimp only
      rw [if_neg (by simp [beq_eq_false_iff_ne.mpr hown]),
        if_neg (by simpa using hup), if_neg (by simpa using hdown),
        if_pos (by simpa [is_deadline_not_reaached] using hdl)]

theorem check_passes (s : State) (c now : Nat) (p : Proposal) (id : Nat)
    (hm : _is_user_part_of_dao s c id ≠ none) (hown : p.owner ≠ some c)
    (hup : c ∉ p.upvotes) (hdown : c ∉ p.downvotes) (hdl : now ≤ p.deadline) :
    _check_if_can_vote s c now p id = Except.ok () := by
  unfold _check_if_can_vote
  cases hmm : _is_user_part_of_dao s c id with
  | none => exact absurd hmm hm
  | some b =>
      dsimp only
      rw [if_neg (by simp [beq_eq_false_iff_ne.mpr hown]),
        if_neg (by simpa using hup), if_neg (by simpa using hdown),
        if_neg (by simp [is_deadline_not_reaached, Nat.not_lt.mpr hdl])]

/- Lifting `_check_if_can_vote` outcomes through `upvote` and `downvote`. -/

theorem upvote_of_check_error (s : State) (c now id : Nat) (p : Proposal) (e : Error)
    (hget : storeGet s.proposals id = some p)
    (hc : _check_if_can_vote s c now p p.dao_id = Except.error e) :
    (upvote s c now id).2 = Except.error e := by
  unfold upvote
  rw [hget]
  dsimp only
  rw [hc]

theorem downvote_of_check_error (s : State) (c now id : Nat) (p : Proposal) (e : Error)
    (hget : storeGet s.proposals id = some p)
    (hc : _check_if_can_vote s c now p p.dao_id = Except.error e) :
    (downvote s c now id).2 = Except.error e := by
  unfold downvote
  rw [hget]
  dsimp only
  rw [hc]

theorem upvote_of_check_ok (s : State) (c now id : Nat) (p : Proposal)
    (hget : storeGet s.proposals id = some p)
    (hc : _check_if_can_vote s c now p p.dao_id = Except.ok ()) :
    (upvote s c now id).2 = Except.ok { p with upvotes := p.upvotes ++ [c] } := by
  unfold upvote
  rw [hget]
  dsimp only
  rw [hc]

theorem downvote_of_check_ok (s : State) (c now id : Nat) (p : Proposal)
    (hget : storeGet s.proposals id = some p)
    (hc : _check_if_can_vote s c now p p.dao_id = Except.ok ()) :
    (downvote s c now id).2 = Except.ok { p with downvotes := p.downvotes ++ [c] } := by
  unfold downvote
  rw [hget]
  dsimp only
  rw [hc]

/- The wrapping `usize` difference is positive exactly when the operands
differ (for in-range operands). -/
theorem usize_sub_wrap_pos_iff (a b : Nat) (ha : a < 2 ^ 32) (hb : b < 2 ^ 32) :
    0 < usize_sub_wrap a b ↔ a ≠ b := by
  have e : (2 : Nat) ^ 32 = 4294967296 := by norm_num
  unfold usize_sub_wrap
  rw [e] at ha hb ⊢
  omega

theorem step_preserves {s s2 : State} (h : StateVoteInv s) (hs : Step s s2) :
    StateVoteInv s2 := by
  cases hs with
  | of_create_dao c now pl => exact create_dao_preserves s c now pl h
  | of_update_dao c now id pl d hok => exact update_dao_preserves s c now id pl h
  | of_delete_dao c id d hok => exact delete_dao_preserves s c id h
  | of_add_proposal c now pl p hok => exact add_proposal_preserves s c now pl h
  | of_update_proposal c now id pl p hok => exact update_proposal_preserves s c now id pl h
  | of_upvote c now id p hok => exact upvote_preserves s c now id h
  | of_downvote c now id p hok => exact downvote_preserves s c now id h
  | of_end_proposal_vote c now id p hok => exact end_proposal_vote_preserves s c now id h
  | of_delete_proposal c now id p hok => exact delete_proposal_preserves s c now id h
  | of_comment_on_post c now pl cm hok => exact comment_on_post_preserves s c now pl h
  | of_update_comment c now id pl cm hok => exact update_comment_preserves s c now id pl h
  | of_like_comment c id dao_id cm hok => exact like_comment_preserves s c id dao_id h
  | of_delete_comment c id cm hok => exact delete_comment_preserves s c id h

/-- C1 counterexample: proposal 1 is owned by principal 1, the deadline
(10) has passed at time 11, it has one upvote and zero downvotes, so the
claimed rule `is_approved = (downvotes.len() > upvotes.len())` demands
`false`; yet the call succeeds with `is_approved = true`, because the
source computes `downvotes.len() - upvotes.len()` with wrapping `usize`
subtraction, which is positive whenever the counts differ. -/
theorem C1_counterexample :
    storeGet fixState.proposals 1 = some fixProposal ∧
    fixProposal.owner = some 1 ∧
    fixProposal.deadline < 11 ∧
    ¬ fixProposal.downvotes.length > fixProposal.upvotes.length ∧
    (end_proposal_vote fixState 1 11 1).2 =
      Except.ok { fixProposal with is_approved := true } := by decide

/-- C1 (amended): when the owner of an existing proposal calls
`end_proposal_vote` after the deadline has passed, the operation succeeds
and sets `is_approved` to true exactly when the number of downvoter
identities DIFFERS from the number of upvoter identities (the wrapping
`usize` subtraction `downvotes.len() - upvotes.len()` is positive iff the
counts differ), and to false when they are equal. -/
theorem C1_amended (s : State) (c now id : Nat) (p : Proposal)
    (hget : storeGet s.proposals id = some p)
    (hown : p.owner = some c)
    (hdl : p.deadline < now)
    (hdb : p.downvotes.length < 2 ^ 32) (hub : p.upvotes.length < 2 ^ 32) :
    (end_proposal_vote s c now id).2 =
      Except.ok
        { p with is_approved := decide (p.downvotes.length ≠ p.upvotes.length) } := by
  unfold end_proposal_vote
  rw [hget]
  dsimp only
  rw [if_neg (by simp [hown]), if_neg (by simp [is_deadline_not_reaached, hdl])]
  rw [decide_eq_decide.mpr
    (usize_sub_wrap_pos_iff p.downvotes.length p.upvotes.length hdb hub)]

/-- Witness for C1 (amended): the owner ends the vote on proposal 1 at
time 11 with vote counts 0 and 1; the call succeeds with
`is_approved = decide (0 ≠ 1) = true`. -/
theorem C1_amended_witness :
    (end_proposal_vote fixState 1 11 1).2 =
      Except.ok
        { fixProposal with
          is_approved :=
            decide (fixProposal.downvotes.length ≠ fixProposal.upvotes.length) } :=
  C1_amended fixState 1 11 1 fixProposal (by decide) (by decide) (by decide)
    (by decide) (by decide)

/-- C2 code bug exhibited: dao 0 exists and is owned by principal 1;
principal 2 calls `delete_dao 0` and receives `PermissionError`, yet the
dao is no longer in the store afterwards, because the source removes the
entry from `DAO_STORAGE` before running the ownership check and an error
reply does not roll state back. This contradicts the claim that an
erroring operation leaves the state unchanged. -/
theorem C2_code_bug :
    storeGet fixState.daos 0 = some fixDao ∧
    fixDao.owner = some 1 ∧
    (delete_dao fixState 2 0).2 = Except.error Error.PermissionError ∧
    storeGet (delete_dao fixState 2 0).1.daos 0 = none := by decide

/-- C3 counterexample: proposal 1 is owned by principal 1 with deadline
10; at time 11 (strictly past the deadline, i.e. Closed) the owner calls
`delete_proposal` — the claim says this succeeds, but the code fails with
`DeadlineExceeded` (the `is_deadline_not_reaached` helper returns
`time() > deadline`, so the gate fires exactly when the deadline HAS
passed). -/
theorem C3_counterexample :
    storeGet fixState.proposals 1 = some fixProposal ∧
    fixProposal.owner = some 1 ∧
    fixProposal.deadline < 11 ∧
    (delete_proposal fixState 1 11 1).2 = Except.error Error.DeadlineExceeded := by decide

/-- C3 (amended): for an existing proposal, `delete_proposal` called by
the owner succeeds while the proposal is still Open (current time at or
before the deadline) and fails with `DeadlineExceeded` once the current
time is strictly past the deadline — the same time restriction as
`update_proposal`, not the opposite one. -/
theorem C3_amended (s : State) (c now id : Nat) (p : Proposal)
    (hget : storeGet s.proposals id = some p) (hown : p.owner = some c) :
    (now ≤ p.deadline → (delete_proposal s c now id).2 = Except.ok p) ∧
    (p.deadline < now →
      (delete_proposal s c now id).2 = Except.error Error.DeadlineExceeded) := by
  unfold delete_proposal
  rw [hget]
  dsimp only
  rw [if_neg (by simp [hown])]
  constructor
  · intro hle
    rw [if_neg (by simp [is_deadline_not_reaached, Nat.not_lt.mpr hle])]
    cases storeGet s.daos p.dao_id <;> rfl
  · intro hgt
    rw [if_pos (by simp [is_deadline_not_reaached, hgt])]

/-- Witness for C3 (amended): the owner deletes proposal 1 at time 5
(before the deadline 10) and the call succeeds. -/
theorem C3_amended_witness :
    (delete_proposal fixState 1 5 1).2 = Except.ok fixProposal :=
  (C3_amended fixState 1 5 1 fixProposal (by decide) (by decide)).1 (by decide)

/-- C4 counterexample: principal 2 (not the owner) calls
`end_proposal_vote` on proposal 1 after the deadline; the claim says the
failure is `PermissionError`, but the code returns the
`CantEditProposal` variant. -/
theorem C4_counterexample :
    storeGet fixState.proposals 1 = some fixProposal ∧
    fixProposal.owner = some 1 ∧
    fixProposal.deadline < 11 ∧
    (end_proposal_vote fixState 2 11 1).2 = Except.error Error.CantEditProposal ∧
    (end_proposal_vote fixState 2 11 1).2 ≠ Except.error Error.PermissionError := by decide

/-- C4 (amended): for an existing proposal, `end_proposal_vote` by the
owner while the current time is at or before the deadline fails with
`DeadlineNotExceeded`; called by any non-owner (at any time, the
ownership check runs first) it fails with `CantEditProposal`. -/
theorem C4_amended (s : State) (c now id : Nat) (p : Proposal)
    (hget : storeGet s.proposals id = some p) :
    (p.owner = some c → now ≤ p.deadline →
      (end_proposal_vote s c now id).2 = Except.error Error.DeadlineNotExceeded) ∧
    (∀ d, p.owner = some d → d ≠ c →
      (end_proposal_vote s c now id).2 = Except.error Error.CantEditProposal) := by
  unfold end_proposal_vote
  rw [hget]
  dsimp only
  constructor
  · intro hown hle
    rw [if_neg (by simp [hown]),
      if_pos (by simp [is_deadline_not_reaached, Nat.not_lt.mpr hle])]
  · intro d hown hne
    rw [if_pos (by rw [hown]; simp [hne])]

/-- Witness for C4 (amended): the owner calls `end_proposal_vote` on
proposal 1 at time 5 (before deadline 10) and gets
`DeadlineNotExceeded`. -/
theorem C4_amended_witness :
    (end_proposal_vote fixState 1 5 1).2 = Except.error Error.DeadlineNotExceeded :=
  (C4_amended fixState 1 5 1 fixProposal (by decide)).1 (by decide) (by decide)

/-- C5 counterexample: dao 0 exists, proposal 1 exists in it, and
principal 9 is neither owner nor member of dao 0; the claim says the
membership failure of `upvote` surfaces `NotAMember`, but
`_check_if_can_vote` returns the `NotFound` variant (its
`_is_user_part_of_dao = None` arm builds `Error::NotFound`). -/
theorem C5_counterexample :
    storeGet fixState.daos 0 = some fixDao ∧
    storeGet fixState.proposals 1 = some fixProposal ∧
    fixDao.owner ≠ some 9 ∧
    (9 : Principal) ∉ fixDao.members ∧
    (upvote fixState 9 5 1).2 = Except.error Error.NotFound ∧
    (upvote fixState 9 5 1).2 ≠ Except.error Error.NotAMember := by decide

/-- C5 (amended): for an existing proposal, `upvote` and `downvote`
validate in the order membership → not-owner → not-already-upvoted →
not-already-downvoted → deadline-not-passed, and the first failing check
determines the error; but a membership failure (dao missing or caller not
owner/member) surfaces `NotFound`, not `NotAMember`; the remaining errors
are `CantVoteYours`, `HasVoted`, `HasVoted` and `DeadlineExceeded` as
claimed. -/
theorem C5_amended (s : State) (c now id : Nat) (p : Proposal)
    (hget : storeGet s.proposals id = some p) :
    (_is_user_part_of_dao s c p.dao_id = none →
      (upvote s c now id).2 = Except.error Error.NotFound ∧
      (downvote s c now id).2 = Except.error Error.NotFound) ∧
    (_is_user_part_of_dao s c p.dao_id ≠ none → p.owner = some c →
      (upvote s c now id).2 = Except.error Error.CantVoteYours ∧
      (downvote s c now id).2 = Except.error Error.CantVoteYours) ∧
    (_is_user_part_of_dao s c p.dao_id ≠ none → p.owner ≠ some c →
      c ∈ p.upvotes →
      (upvote s c now id).2 = Except.error Error.HasVoted ∧
      (downvote s c now id).2 = Except.error Error.HasVoted) ∧
    (_is_user_part_of_dao s c p.dao_id ≠ none → p.owner ≠ some c →
      c ∉ p.upvotes → c ∈ p.downvotes →
      (upvote s c now id).2 = Except.error Error.HasVoted ∧
      (downvote s c now id).2 = Except.error Error.HasVoted) ∧
    (_is_user_part_of_dao s c p.dao_id ≠ none → p.owner ≠ some c →
      c ∉ p.upvotes → c ∉ p.downvotes → p.deadline < now →
      (upvote s c now id).2 = Except.error Error.DeadlineExceeded ∧
      (downvote s c now id).2 = Except.error Error.DeadlineExceeded) := by
  refine ⟨?_, ?_, ?_, ?_, ?_⟩
  · intro hm
    have hc := check_not_member s c now p p.dao_id hm
    exact ⟨upvote_of_check_error s c now id p _ hget hc,
      downvote_of_check_error s c now id p _ hget hc⟩
  · intro hm hown
    have hc := check_self_vote s c now p p.dao_id hm hown
    exact ⟨upvote_of_check_error s c now id p _ hget hc,
      downvote_of_check_error s c now id p _ hget hc⟩
  · intro hm hown hup
    have hc := check_has_upvoted s c now p p.dao_id hm hown hup
    exact ⟨upvote_of_check_error s c now id p _ hget hc,
      downvote_of_check_error s c now id p _ hget hc⟩
  · intro hm hown hup hdown
    have hc := check_has_downvoted s c now p p.dao_id hm hown hup hdown
    exact ⟨upvote_of_check_error s c now id p _ hget hc,
      downvote_of_check_error s c now id p _ hget hc⟩
  · intro hm hown hup hdown hdl
    have hc := check_deadline_passed s c now p p.dao_id hm hown hup hdown hdl
    exact ⟨upvote_of_check_error s c now id p _ hget hc,
      downvote_of_check_error s c now id p _ hget hc⟩

/-- Witness for C5 (amended): member 2 has already upvoted proposal 1, so
a second upvote (and a downvote) by 2 fails with `HasVoted`. -/
theorem C5_amended_witness :
    (upvote fixState 2 5 1).2 = Except.error Error.HasVoted ∧
    (downvote fixState 2 5 1).2 = Except.error Error.HasVoted :=
  (C5_amended fixState 2 5 1 fixProposal (by decide)).2.2.1 (by decide) (by decide)
    (by decide)

/-- C6: from any initial state whose proposals all have disjoint,
owner-free vote sets, every state reachable by a sequence of successful
state-mutating operations again satisfies the invariant: in every stored
proposal each identity appears in at most one of the upvoter and
downvoter lists, and the owner identity (when present) appears in
neither. -/
theorem C6_vote_exclusivity (s0 s : State) (h0 : StateVoteInv s0)
    (hr : ReachableFrom s0 s) : StateVoteInv s := by
  induction hr with
  | refl => exact h0
  | tail s2 s3 h1 h2 ih => exact step_preserves ih h2

/-- Witness for C6: starting from the empty state (trivially invariant),
one step of `create_dao` followed by the theorem yields the invariant for
the resulting state. -/
theorem C6_vote_exclusivity_witness :
    StateVoteInv
      (create_dao emptyState 1 0
        { name := "d", description := "", avatar := "" }).1 :=
  C6_vote_exclusivity emptyState _
    (fun _ _ hp => Option.noConfusion hp)
    (ReachableFrom.tail _ _ _ (ReachableFrom.refl _)
      (Step.of_create_dao emptyState 1 0 { name := "d", description := "", avatar := "" }))

/-- C7 counterexample: no dao with id 99 exists in the store, yet
`get_dao 99` returns `NotAMember`, not `NotFound` as the claim demands:
`_is_user_part_of_dao` collapses "dao absent" and "caller not a member"
into the same `None`, which `get_dao` maps to `NotAMember`. -/
theorem C7_counterexample :
    storeGet fixState.daos 99 = none ∧
    get_dao fixState 1 99 = Except.error Error.NotAMember ∧
    get_dao fixState 1 99 ≠ Except.error Error.NotFound := by decide

/-- C7 (amended): `get_dao` fails with `NotAMember` both when the
organization does not exist and when it exists but the caller is neither
its owner nor a member; every error it returns is `NotAMember` (its
`NotFound` branch is unreachable), so the two cases are NOT
distinguished. -/
theorem C7_amended (s : State) (c : Principal) (id : Nat) :
    (storeGet s.daos id = none →
      get_dao s c id = Except.error Error.NotAMember) ∧
    (∀ dao, storeGet s.daos id = some dao → dao.owner ≠ some c →
      c ∉ dao.members → get_dao s c id = Except.error Error.NotAMember) ∧
    (∀ e, get_dao s c id = Except.error e → e = Error.NotAMember) := by
  refine ⟨?_, ?_, ?_⟩
  · intro hnone
    unfold get_dao _is_user_part_of_dao _get_dao
    rw [hnone]
  · intro dao hdao hown hmem
    unfold get_dao _is_user_part_of_dao _get_dao
    rw [hdao]
    dsimp only
    rw [if_neg (by simp [beq_eq_false_iff_ne.mpr hown]; simpa using hmem)]
  · intro e he
    unfold get_dao at he
    cases hmm : _is_user_part_of_dao s c id with
    | none => rw [hmm] at he; cases he; rfl
    | some b =>
        rw [hmm] at he
        dsimp only at he
        unfold _is_user_part_of_dao at hmm
        cases hgd : _get_dao s id with
        | none => rw [hgd] at hmm; cases hmm
        | some dao => rw [hgd] at he; cases he

/-- Witness for C7 (amended): principal 9 is not a member of the existing
dao 0 and gets `NotAMember` from `get_dao 0`. -/
theorem C7_amended_witness :
    get_dao fixState 9 0 = Except.error Error.NotAMember :=
  (C7_amended fixState 9 0).2.1 fixDao (by decide) (by decide) (by decide)

/-- C8: for an existing proposal and a caller satisfying all other vote
preconditions (member of the dao, not the owner, not yet in either vote
list), `upvote` and `downvote` fail with `DeadlineExceeded` exactly when
the current time is strictly greater than the deadline, and succeed
(appending the caller to the respective vote list) when the current time
is at or before the deadline — `now = deadline` counts as
not-yet-passed. -/
theorem C8_vote_deadline_boundary (s : State) (c now id : Nat) (p : Proposal)
    (hget : storeGet s.proposals id = some p)
    (hm : _is_user_part_of_dao s c p.dao_id ≠ none)
    (hown : p.owner ≠ some c) (hu : c ∉ p.upvotes) (hd : c ∉ p.downvotes) :
    ((upvote s c now id).2 = Except.error Error.DeadlineExceeded ↔ p.deadline < now) ∧
    (now ≤ p.deadline →
      (upvote s c now id).2 = Except.ok { p with upvotes := p.upvotes ++ [c] }) ∧
    ((downvote s c now id).2 = Except.error Error.DeadlineExceeded ↔ p.deadline < now) ∧
    (now ≤ p.deadline →
      (downvote s c now id).2 = Except.ok { p with downvotes := p.downvotes ++ [c] }) := by
  by_cases hdl : p.deadline < now
  · have hc := check_deadline_passed s c now p p.dao_id hm hown hu hd hdl
    refine ⟨?_, ?_, ?_, ?_⟩
    · exact iff_of_true (upvote_of_check_error s c now id p _ hget hc) hdl
    · intro hle; exact absurd hdl (Nat.not_lt.mpr hle)
    · exact iff_of_true (downvote_of_check_error s c now id p _ hget hc) hdl
    · intro hle; exact absurd hdl (Nat.not_lt.mpr hle)
  · have hle := Nat.not_lt.mp hdl
    have hc := check_passes s c now p p.dao_id hm hown hu hd hle
    refine ⟨?_, ?_, ?_, ?_⟩
    · refine iff_of_false ?_ hdl
      simp [upvote_of_check_ok s c now id p hget hc]
    · intro _; exact upvote_of_check_ok s c now id p hget hc
    · refine iff_of_false ?_ hdl
      simp [downvote_of_check_ok s c now id p hget hc]
    · intro _; exact downvote_of_check_ok s c now id p hget hc

/-- Witness for C8: member 3 of dao 0 upvotes proposal 1 exactly at the
deadline instant (`now = deadline = 10`) and succeeds: the boundary
counts as not-yet-passed. -/
theorem C8_vote_deadline_boundary_witness :
    (upvote fixState 3 10 1).2 =
      Except.ok { fixProposal with upvotes := fixProposal.upvotes ++ [3] } :=
  (C8_vote_deadline_boundary fixState 3 10 1 fixProposal (by decide) (by decide)
    (by decide) (by decide) (by decide)).2.1 (by decide)

/-- C9: when an organization whose listed proposal ids all reference
stored proposals is successfully deleted by its owner, every proposal id
in its list is removed from the proposal store, and a subsequent
`get_proposal` on any of those ids (by any caller) returns `NotFound`. -/
theorem C9_org_delete_cascade (s : State) (c id : Nat) (dao : Dao)
    (hget : storeGet s.daos id = some dao)
    (hown : dao.owner = some c)
    (href : ∀ pid ∈ dao.proposals, ∃ q, storeGet s.proposals pid = some q) :
    (delete_dao s c id).2 = Except.ok dao ∧
    ∀ pid ∈ dao.proposals, ∀ c2,
      get_proposal (delete_dao s c id).1 c2 pid = Except.error Error.NotFound := by
  unfold delete_dao
  rw [hget]
  dsimp only
  rw [if_neg (by simp [hown])]
  refine ⟨rfl, ?_⟩
  intro pid hpid c2
  unfold get_proposal _get_proposal
  dsimp only
  rw [storeGet_foldl_erase_of_mem dao.proposals s.proposals pid hpid]

/-- Witness for C9: principal 1 owns dao 0, whose proposal list is [1]
and proposal 1 is stored; after `delete_dao 0` by principal 1,
`get_proposal 1` returns `NotFound`. -/
theorem C9_org_delete_cascade_witness :
    get_proposal (delete_dao fixState 1 0).1 2 1 = Except.error Error.NotFound :=
  (C9_org_delete_cascade fixState 1 0 fixDao (by decide) (by decide)
      (by
        intro pid hpid
        rw [show fixDao.proposals = [1] from rfl, List.mem_singleton] at hpid
        subst hpid
        exact ⟨fixProposal, by decide⟩)).2
    1 (by decide) 2

/-- C10 counterexample: proposal 1 has `owner = None`, yet
`end_proposal_vote` by an arbitrary caller (principal 7) at time 5 (before
the deadline 10) does NOT succeed — it fails with `DeadlineNotExceeded` —
so "every ownership-gated mutation succeeds for any caller" is false as
stated; only the ownership check itself is skipped. -/
theorem C10_counterexample :
    storeGet fixStateNoOwner.proposals 1 = some fixProposalNoOwner ∧
    fixProposalNoOwner.owner = none ∧
    (end_proposal_vote fixStateNoOwner 7 5 1).2 =
      Except.error Error.DeadlineNotExceeded := by decide

/-- C10 (amended): whenever the stored owner/author field is `None`, the
seven ownership-gated mutations skip their permission check for every
caller — none of them can return its ownership error (`PermissionError`,
or `CantEditProposal` for `end_proposal_vote`); `update_dao`,
`delete_dao`, `update_comment` and `delete_comment` then succeed for any
caller, while `update_proposal` and `delete_proposal` still succeed only
while the deadline has not passed and `end_proposal_vote` only after it
has. -/
theorem C10_amended (s : State) (c now id : Nat) :
    (∀ dao pl, storeGet s.daos id = some dao → dao.owner = none →
      (update_dao s c now id pl).2 =
        Except.ok
          { dao with
            name := pl.name, description := pl.description,
            avatar := pl.avatar, updated_at := some now }) ∧
    (∀ dao, storeGet s.daos id = some dao → dao.owner = none →
      (delete_dao s c id).2 = Except.ok dao) ∧
    (∀ p pl, storeGet s.proposals id = some p → p.owner = none →
      (update_proposal s c now id pl).2 ≠ Except.error Error.PermissionError ∧
      (now ≤ p.deadline →
        (update_proposal s c now id pl).2 =
          Except.ok
            { p with
              title := pl.title, details := pl.details,
              amount_requested := pl.amount_requested, updated_at := some now })) ∧
    (∀ p, storeGet s.proposals id = some p → p.owner = none →
      (end_proposal_vote s c now id).2 ≠ Except.error Error.CantEditProposal ∧
      (p.deadline < now →
        (end_proposal_vote s c now id).2 =
          Except.ok
            { p with
              is_approved :=
                decide (0 < usize_sub_wrap p.downvotes.length p.upvotes.length) })) ∧
    (∀ p, storeGet s.proposals id = some p → p.owner = none →
      (delete_proposal s c now id).2 ≠ Except.error Error.PermissionError ∧
      (now ≤ p.deadline → (delete_proposal s c now id).2 = Except.ok p)) ∧
    (∀ cm pl, storeGet s.comments id = some cm → cm.author = none →
      (update_comment s c now id pl).2 =
        Except.ok { cm with content := pl.content, updated_at := some now }) ∧
    (∀ cm, storeGet s.comments id = some cm → cm.author = none →
      (delete_comment s c id).2 = Except.ok cm) := by
  refine ⟨?_, ?_, ?_, ?_, ?_, ?_, ?_⟩
  · intro dao pl hget hown
    unfold update_dao
    rw [hget]
    dsimp only
    rw [if_neg (by simp [hown])]
  · intro dao hget hown
    unfold delete_dao
    rw [hget]
    dsimp only
    rw [if_neg (by simp [hown])]
  · intro p pl hget hown
    refine ⟨?_, ?_⟩
    · intro hbad
      unfold update_proposal at hbad
      rw [hget] at hbad
      dsimp only at hbad
      rw [if_neg (by simp [hown])] at hbad
      by_cases h2 : is_deadline_not_reaached now p.deadline = true
      · rw [if_pos h2] at hbad; simp at hbad
      · rw [if_neg h2] at hbad; simp at hbad
    · intro hle
      unfold update_proposal
      rw [hget]
      dsimp only
      rw [if_neg (by simp [hown]),
        if_neg (by simp [is_deadline_not_reaached, Nat.not_lt.mpr hle])]
  · intro p hget hown
    refine ⟨?_, ?_⟩
    · intro hbad
      unfold end_proposal_vote at hbad
      rw [hget] at hbad
      dsimp only at hbad
      rw [if_neg (by simp [hown])] at hbad
      by_cases h2 : (!is_deadline_not_reaached now p.deadline) = true
      · rw [if_pos h2] at hbad; simp at hbad
      · rw [if_neg h2] at hbad; simp at hbad
    · intro hgt
      unfold end_proposal_vote
      rw [hget]
      dsimp only
      rw [if_neg (by simp [hown]),
        if_neg (by simp [is_deadline_not_reaached, hgt])]
  · intro p hget hown
    refine ⟨?_, ?_⟩
    · intro hbad
      unfold delete_proposal at hbad
      rw [hget] at hbad
      dsimp only at hbad
      rw [if_neg (by simp [hown])] at hbad
      by_cases h2 : is_deadline_not_reaached now p.deadline = true
      · rw [if_pos h2] at hbad; simp at hbad
      · rw [if_neg h2] at hbad
        cases hds : storeGet s.daos p.dao_id <;> rw [hds] at hbad <;> simp at hbad
    · intro hle
      unfold delete_proposal
      rw [hget]
      dsimp only
      rw [if_neg (by simp [hown]),
        if_neg (by simp [is_deadline_not_reaached, Nat.not_lt.mpr hle])]
      cases storeGet s.daos p.dao_id <;> rfl
  · intro cm pl hget hown
    unfold update_comment
    rw [hget]
    dsimp only
    rw [if_neg (by simp [hown])]
  · intro cm hget hown
    unfold delete_comment
    rw [hget]
    dsimp only
    rw [if_neg (by simp [hown])]
    cases storeGet s.proposals cm.proposal_id <;> rfl

/-- Witness for C10 (amended): dao 0 of the no-owner fixture has
`owner = None`, and `delete_dao` by the unrelated principal 9 succeeds. -/
theorem C10_amended_witness :
    (delete_dao fixStateNoOwner 9 0).2 = Except.ok fixDaoNoOwner :=
  (C10_amended fixStateNoOwner 9 5 0).2.1 fixDaoNoOwner (by decide) (by decide)

end IcpDao
